import Mathlib

/-!
Formal model of the email engagement tracker backend (`main.py`): the
append-only JSONL event store (`append_event` / `read_jsonl`), the
pixel-open deduplication guard (`already_opened_recent`), the image
resolver behind `GET /api/img` (`api_img`), and the read-side query
endpoints (`tracking_by_email`, `tracking_latest`).

Embedding conventions:
- a JSON event record (a Python dict) is an `Event` structure of optional
  fields; a missing key and a JSON `null` value both map to `none`, which
  matches every read in the source (all of them go through `dict.get` or
  are guarded by membership tests);
- a log file is a `LogFile := Option (List Line)`, `none` standing for a
  file that does not exist yet; a `Line` is either a successfully parsed
  record, a blank line, or a malformed line (the outcome of `json.loads`);
- timestamps are modelled at the string level: `isoformat` renders
  `datetime.utcnow().isoformat()` and `fromisoformat` models the strict
  `datetime.fromisoformat` parser; real time is measured by `toTicks`
  (microseconds on a civil-calendar timeline), which models both
  `datetime` comparison and `timedelta` subtraction;
- the filesystem seen by the resolver is a function `String → FileState`
  and the outbound HTTP fetch is a function `String → FetchOutcome`,
  passed to `api_img` as explicit parameters.
-/

set_option linter.unusedVariables false

namespace PixelTrack

/-! ## String constants used by the source -/

def sPixelOpen : String := "pixel_open"

def sClick : String := "click"

def sLocal : String := "local"

def sRemote : String := "remote"

def imageGif : String := "image/gif"

def imageJpeg : String := "image/jpeg"

def imagePng : String := "image/png"

def octetStream : String := "application/octet-stream"

def UPLOAD_FOLDER : String := "./uploads"

def slashS : String := "/"

def httpPre : String := "http://"

def httpsPre : String := "https://"

def emptyS : String := ""

def zS : String := "Z"

/-! ## Timestamps

`append_event` stamps records with `datetime.utcnow().isoformat() + "Z"`
and the dedup guard parses them back with
`datetime.datetime.fromisoformat(e["time"].replace("Z", ""))`.  We model
the `datetime` library value as a `DateTime` record of calendar fields,
its rendering and strict parsing at the character level, and instants on
the real timeline as microsecond ticks (`toTicks`). -/

structure DateTime where
  year : Nat
  month : Nat
  day : Nat
  hour : Nat
  minute : Nat
  second : Nat
  microsecond : Nat
deriving DecidableEq, Repr

def isLeap (y : Nat) : Bool :=
  (y % 4 = 0 && y % 100 != 0) || y % 400 = 0

def daysInMonth (y m : Nat) : Nat :=
  if m = 2 then (if isLeap y then 29 else 28)
  else if m = 4 ∨ m = 6 ∨ m = 9 ∨ m = 11 then 30
  else 31

/-- The ranges accepted by Python's `datetime` constructor (and enforced by
`fromisoformat`). -/
def DateTime.Valid (dt : DateTime) : Prop :=
  1 ≤ dt.year ∧ dt.year ≤ 9999 ∧ 1 ≤ dt.month ∧ dt.month ≤ 12 ∧
  1 ≤ dt.day ∧ dt.day ≤ daysInMonth dt.year dt.month ∧
  dt.hour ≤ 23 ∧ dt.minute ≤ 59 ∧ dt.second ≤ 59 ∧ dt.microsecond ≤ 999999

instance (dt : DateTime) : Decidable dt.Valid := by
  unfold DateTime.Valid; infer_instance

/-- Decimal digit character, as produced by Python's zero-padded `%0Nd`
string formatting of the field values. -/
def digit (n : Nat) : Char := Char.ofNat (48 + n % 10)

def pad2 (n : Nat) : List Char := [digit (n / 10), digit n]

def pad4 (n : Nat) : List Char := pad2 (n / 100) ++ pad2 n

def pad6 (n : Nat) : List Char := pad2 (n / 10000) ++ pad2 (n / 100) ++ pad2 n

/-- Characters of `datetime.isoformat()`: `YYYY-MM-DDTHH:MM:SS` followed by
`.ffffff` exactly when the microsecond field is nonzero (Python omits the
fraction when it is zero). -/
def isoChars (dt : DateTime) : List Char :=
  pad4 dt.year ++ '-' :: pad2 dt.month ++ '-' :: pad2 dt.day ++
  'T' :: pad2 dt.hour ++ ':' :: pad2 dt.minute ++ ':' :: pad2 dt.second ++
  (if dt.microsecond = 0 then [] else '.' :: pad6 dt.microsecond)

/-- Models `datetime.isoformat()`. -/
def isoformat (dt : DateTime) : String := String.mk (isoChars dt)

/-- Models `datetime.utcnow().isoformat() + "Z"`, the stamp written by
`append_event`. -/
def isoZ (dt : DateTime) : String := isoformat dt ++ zS

def digitVal? (c : Char) : Option Nat :=
  if c.isDigit then some (c.toNat - 48) else none

def parse2 : List Char → Option (Nat × List Char)
  | a :: b :: rest =>
      match digitVal? a, digitVal? b with
      | some x, some y => some (10 * x + y, rest)
      | _, _ => none
  | _ => none

def parse4 (cs : List Char) : Option (Nat × List Char) :=
  match parse2 cs with
  | some (hi, cs1) =>
      match parse2 cs1 with
      | some (lo, cs2) => some (100 * hi + lo, cs2)
      | none => none
  | none => none

def parse6 (cs : List Char) : Option (Nat × List Char) :=
  match parse2 cs with
  | some (a, cs1) =>
      match parse2 cs1 with
      | some (b, cs2) =>
          match parse2 cs2 with
          | some (c, cs3) => some (10000 * a + 100 * b + c, cs3)
          | none => none
      | none => none
  | none => none

def expectChar (c : Char) : List Char → Option (List Char)
  | x :: rest => if x = c then some rest else none
  | [] => none

def parseFrac : List Char → Option (Nat × List Char)
  | '.' :: rest => parse6 rest
  | cs => some (0, cs)

/-- Character-level core of `fromisoformat`. -/
def fromisoChars (cs : List Char) : Option DateTime :=
  (parse4 cs).bind fun py =>
  (expectChar '-' py.2).bind fun c1 =>
  (parse2 c1).bind fun pmo =>
  (expectChar '-' pmo.2).bind fun c2 =>
  (parse2 c2).bind fun pd =>
  (expectChar 'T' pd.2).bind fun c3 =>
  (parse2 c3).bind fun ph =>
  (expectChar ':' ph.2).bind fun c4 =>
  (parse2 c4).bind fun pmi =>
  (expectChar ':' pmi.2).bind fun c5 =>
  (parse2 c5).bind fun ps =>
  (parseFrac ps.2).bind fun pus =>
  match pus.2 with
  | [] =>
      let dt : DateTime :=
        ⟨py.1, pmo.1, pd.1, ph.1, pmi.1, ps.1, pus.1⟩
      if dt.Valid then some dt else none
  | _ => none

/-- Models the strict `datetime.datetime.fromisoformat` parser: it accepts
exactly the output format of `datetime.isoformat()` and validates the
calendar ranges, returning `none` (a `ValueError` in the source) on
anything else. -/
def fromisoformat (s : String) : Option DateTime := fromisoChars s.data

/-- Drops every `'Z'` character. -/
def dropZ : List Char → List Char
  | [] => []
  | c :: rest => if c = 'Z' then dropZ rest else c :: dropZ rest

/-- Models `s.replace("Z", "")`: with a single-character pattern and an
empty replacement, Python's `str.replace` removes every occurrence. -/
def replaceZempty (s : String) : String := String.mk (dropZ s.data)

/-- Models `datetime.datetime.fromisoformat(s.replace("Z", ""))`, the
parse performed by the dedup scan on a stored `time` value. -/
def parseStoredTime (s : String) : Option DateTime :=
  fromisoformat (replaceZempty s)

/-- Days since 0000-03-01 on the proleptic Gregorian calendar (the
standard days-from-civil algorithm), defined for valid dates. -/
def daysFromCivil (y m d : Nat) : Nat :=
  let ys := if m ≤ 2 then y - 1 else y
  let era := ys / 400
  let yoe := ys % 400
  let mp := if m ≤ 2 then m + 9 else m - 3
  let doy := (153 * mp + 2) / 5 + d - 1
  let doe := yoe * 365 + yoe / 4 - yoe / 100 + doy
  era * 146097 + doe

/-- Microsecond ticks of an instant on the civil-calendar timeline
(measured from 0000-03-01; the origin offset cancels in every comparison
and difference).  This models Python `datetime` ordering and `timedelta`
arithmetic: `t1 <= t2` iff `toTicks t1 <= toTicks t2`, and
`t - timedelta(minutes=m)` sits at `toTicks t - m * 60000000`. -/
def toTicks (dt : DateTime) : Int :=
  (((daysFromCivil dt.year dt.month dt.day) * 86400 +
    dt.hour * 3600 + dt.minute * 60 + dt.second) * 1000000 +
   dt.microsecond : Nat)

/-! ## Event records and log files -/

/-- A JSON event record.  Every key the source ever writes or reads is a
field; a missing key and a JSON `null` both map to `none`, matching the
`dict.get` reads of the source. -/
structure Event where
  type : Option String
  email : Option String
  message_id : Option String
  time : Option String
  image_param : Option String
  user_agent : Option String
  remote_addr : Option String
  redirect : Option String
  served : Option String
  filename : Option String
  url : Option String
  error : Option String
deriving DecidableEq, Repr

def emptyEvent : Event :=
  ⟨none, none, none, none, none, none, none, none, none, none, none, none⟩

/-- One physical line of a JSONL log file, as seen by `read_jsonl`:
either a line whose `json.loads` succeeds, a blank line, or a line whose
`json.loads` raises. -/
inductive Line where
  | ok (e : Event)
  | blank
  | malformed
deriving DecidableEq, Repr

/-- A log file on disk; `none` is a file that does not exist yet. -/
abbrev LogFile := Option (List Line)

/-- Models `ensure_file`: creates the file empty when absent (the
`os.makedirs` call on the containing directory is a platform service and
leaves no trace in this model).  Returns the file's content. -/
def ensure_file (f : LogFile) : List Line := f.getD []

def lineEvent : Line → Option Event
  | .ok e => some e
  | .blank => none
  | .malformed => none

/-- Models `read_jsonl`: ensures the file, then walks its lines in order,
skipping blank lines (`if not line: continue`) and lines whose parse
raises (`except: continue`), and returns the successfully parsed records
in file order. -/
def read_jsonl (f : LogFile) : List Event :=
  (ensure_file f).filterMap lineEvent

/-- The mutation `obj["time"] = datetime.utcnow().isoformat() + "Z"`
performed by `append_event` when the record lacks a `time` key. -/
def stampEvent (now : DateTime) (e : Event) : Event :=
  match e.time with
  | none => { e with time := some (isoZ now) }
  | some _ => e

/-- Models `append_event`: stamps the record when it lacks a `time`,
ensures the file, and appends the record's `json.dumps` serialization as
one line (which `json.loads` parses back to the same record). -/
def append_event (now : DateTime) (e : Event) (f : LogFile) : LogFile :=
  some (ensure_file f ++ [Line.ok (stampEvent now e)])

/-- A sequence of `append_event` calls, each with its own current time. -/
def appendMany (recs : List (Event × DateTime)) (f : LogFile) : LogFile :=
  recs.foldl (fun acc rd => append_event rd.2 rd.1 acc) f

/-! ## Dedup guard -/

/-- One step of the scan body of `already_opened_recent`: does this event
match (`type == "pixel_open"`, `email` equal, `message_id` equal, `time`
present, parsable, and at or after the cutoff)?  Events failing any test
are skipped (the `except: pass` swallows missing and unparsable times). -/
def matchesRecent (cutoff : Int) (email : String) (mid : Option String)
    (e : Event) : Bool :=
  if e.type = some sPixelOpen ∧ e.email = some email ∧ e.message_id = mid then
    match e.time with
    | some s =>
        match parseStoredTime s with
        | some t => decide (cutoff ≤ toTicks t)
        | none => false
    | none => false
  else false

/-- The `for e in reversed(events)` loop: return `true` at the first
matching event, keep scanning otherwise, `false` when the list ends. -/
def scanRecent (cutoff : Int) (email : String) (mid : Option String) :
    List Event → Bool
  | [] => false
  | e :: rest =>
      if e.type = some sPixelOpen ∧ e.email = some email ∧ e.message_id = mid then
        match e.time with
        | some s =>
            match parseStoredTime s with
            | some t =>
                if cutoff ≤ toTicks t then true
                else scanRecent cutoff email mid rest
            | none => scanRecent cutoff email mid rest
        | none => scanRecent cutoff email mid rest
      else scanRecent cutoff email mid rest

/-- Models `already_opened_recent(email, message_id, minutes=10)`: reads
the primary log, computes `cutoff = utcnow() - timedelta(minutes=minutes)`
and scans all events most-recent first. -/
def already_opened_recent (now : DateTime) (logf : LogFile) (email : String)
    (message_id : Option String) (minutes : Nat) : Bool :=
  let events := read_jsonl logf
  let cutoff : Int := toTicks now - (minutes * 60000000 : Nat)
  scanRecent cutoff email message_id events.reverse

/-! ## Image resolver (`GET /api/img`) -/

/-- The 1x1 transparent GIF, `bytes.fromhex(...)` from the source. -/
def ONE_BY_ONE_GIF : List Nat :=
  [0x47, 0x49, 0x46, 0x38, 0x39, 0x61, 0x01, 0x00, 0x01, 0x00, 0x80,
   0x00, 0x00, 0xff, 0xff, 0xff, 0x00, 0xff, 0x21, 0xf9, 0x04, 0x01,
   0x00, 0x00, 0x00, 0x00, 0x2c, 0x00, 0x00, 0x00, 0x00, 0x01, 0x00,
   0x01, 0x00, 0x00, 0x02, 0x01, 0x44, 0x00, 0x3b]

def hCacheControl : String := "Cache-Control"

def vCacheControl : String := "no-cache, no-store, must-revalidate"

def hPrpragma : String := "Prpragma"

def vNoCache : String := "no-cache"

def hExpires : String := "Expires"

def vZero : String := "0"

def hContentDisposition : String := "Content-Disposition"

def vInlinePixel : String := "inline; filename=pixel.gif"

/-- The `headers` dict built by `api_img` (the `Prpragma` typo is the
source's). -/
def pixelHeaders : List (String × String) :=
  [(hCacheControl, vCacheControl), (hPrpragma, vNoCache),
   (hExpires, vZero), (hContentDisposition, vInlinePixel)]

structure HttpResponse where
  content : List Nat
  media_type : String
  headers : List (String × String)
deriving DecidableEq, Repr

def defaultGifResp : HttpResponse := ⟨ONE_BY_ONE_GIF, imageGif, pixelHeaders⟩

/-- What the filesystem holds at a path: nothing (`os.path.exists` is
false), a regular readable file, or something that exists but whose
`open`/`read` raises (unreadable file, directory, ...). -/
inductive FileState where
  | absent
  | readable (content : List Nat)
  | unreadable (msg : String)
deriving DecidableEq, Repr

/-- Outcome of `requests.get(url, timeout=8)`: a completed HTTP exchange
(any status code: `requests` does not raise on 4xx/5xx and the source
never checks the status) carrying the optional `Content-Type` header and
the body, or a raised exception (timeout, DNS failure, connection
refused, ...). -/
inductive FetchOutcome where
  | completed (status : Nat) (ctype : Option String) (body : List Nat)
  | raised (msg : String)
deriving DecidableEq, Repr

def hexVal (c : Char) : Option Nat :=
  if c.isDigit then some (c.toNat - 48)
  else if 'a' ≤ c ∧ c ≤ 'f' then some (c.toNat - 87)
  else if 'A' ≤ c ∧ c ≤ 'F' then some (c.toNat - 55)
  else none

/-- Character-level body of `urllib.parse.unquote_plus`: `+` becomes a
space, a valid `%hh` pair becomes the byte `hh`, and an invalid escape is
kept literally (faithful byte-for-byte on ASCII; Python additionally runs
a UTF-8 decode over the produced bytes, which is the identity there). -/
def uqChars : List Char → List Char
  | [] => []
  | '+' :: rest => ' ' :: uqChars rest
  | '%' :: a :: b :: rest =>
      match hexVal a, hexVal b with
      | some x, some y => Char.ofNat (16 * x + y) :: uqChars rest
      | _, _ => '%' :: uqChars (a :: b :: rest)
  | c :: rest => c :: uqChars rest

/-- Models `urllib.parse.unquote_plus`. -/
def unquote_plus (s : String) : String := String.mk (uqChars s.data)

/-- Models `image_param = urllib.parse.unquote_plus(image) if image else
None`: `None` and the empty string (Python falsiness) both give `None`. -/
def pyImageParam (image : Option String) : Option String :=
  match image with
  | some i => if i = emptyS then none else some (unquote_plus i)
  | none => none

/-- Models `str.startswith` on a literal prefix, at the character level. -/
def listStartsWith : List Char → List Char → Bool
  | [], _ => true
  | _ :: _, [] => false
  | p :: ps, c :: cs => if p = c then listStartsWith ps cs else false

/-- The test `image_param.startswith(("http://", "https://"))`. -/
def isRemote (s : String) : Bool :=
  listStartsWith httpPre.data s.data || listStartsWith httpsPre.data s.data

/-- Models `os.path.basename` (POSIX): everything after the last slash. -/
def basename (p : String) : String :=
  String.mk ((p.data.reverse.takeWhile (fun c => c ≠ '/')).reverse)

/-- Models `os.path.join(a, b)` for a non-empty `a` that does not end in a
slash, as at the single call site: an absolute `b` replaces `a`, otherwise
the parts are joined with one slash. -/
def pyJoin (a b : String) : String :=
  if b.data.head? = some '/' then b else a ++ slashS ++ b

def extPng : String := "png"

def extGif : String := "gif"

def extJpg : String := "jpg"

def extJpeg : String := "jpeg"

def dotChar (c : Char) : Bool := c = '.'

/-- The extension of a path: the segment after the last dot. -/
def extOf (p : String) : String :=
  String.mk ((p.data.reverse.takeWhile (fun c => c ≠ '.')).reverse)

/-- Models the `mimetypes.guess_type` library call (an external
collaborator per the spec) on the handful of image types the system
serves: a minimal extension map, `none` for anything unknown. -/
def guess_type (p : String) : Option String :=
  if p.data.any dotChar then
    if extOf p = extPng then some imagePng
    else if extOf p = extGif then some imageGif
    else if extOf p = extJpg ∨ extOf p = extJpeg then some imageJpeg
    else none
  else none

/-- The query parameters and request metadata of a `GET /api/img` call. -/
structure Request where
  email : String
  image : Option String
  message_id : Option String
  user_agent : Option String
  remote_addr : Option String
deriving DecidableEq, Repr

/-- The `pixel_open` event dict built by `api_img` (before stamping). -/
def mkPixelEvent (req : Request) : Event :=
  { emptyEvent with
      type := some sPixelOpen
      email := some req.email
      message_id := req.message_id
      image_param := pyImageParam req.image
      user_agent := req.user_agent
      remote_addr := req.remote_addr }

/-- The image-serving part of `api_img`, after the dedup/append section:
returns the HTTP response and the new image-read log.  Branch order of
the source: a present non-remote `image_param` is tried locally (reaching
the remote block only when its `startswith` test would fail, i.e. never),
a present remote one is proxied, everything else falls to the default
GIF.  Note that a non-remote reference whose file does not exist falls
through to the default GIF without touching the image-read log. -/
def imageBranch (fs : String → FileState) (fetch : String → FetchOutcome)
    (now : DateTime) (req : Request) (ip : Option String)
    (imgLog0 : LogFile) : HttpResponse × LogFile :=
  match ip with
  | none => (defaultGifResp, imgLog0)
  | some p =>
      if isRemote p then
        match fetch p with
        | .completed _status ctype body =>
            (⟨body, ctype.getD imageJpeg, pixelHeaders⟩,
             append_event now
               { emptyEvent with
                   email := some req.email
                   message_id := req.message_id
                   served := some sRemote
                   url := some p } imgLog0)
        | .raised msg =>
            (defaultGifResp,
             append_event now
               { emptyEvent with
                   email := some req.email
                   message_id := req.message_id
                   served := some sRemote
                   url := some p
                   error := some msg } imgLog0)
      else
        match fs (pyJoin UPLOAD_FOLDER (basename p)) with
        | .readable content =>
            (⟨content,
              (guess_type (pyJoin UPLOAD_FOLDER (basename p))).getD octetStream,
              pixelHeaders⟩,
             append_event now
               { emptyEvent with
                   email := some req.email
                   message_id := req.message_id
                   served := some sLocal
                   filename := some p } imgLog0)
        | .unreadable msg =>
            (defaultGifResp,
             append_event now
               { emptyEvent with
                   email := some req.email
                   message_id := req.message_id
                   error := some msg
                   served := some sLocal } imgLog0)
        | .absent => (defaultGifResp, imgLog0)

structure ApiResult where
  resp : HttpResponse
  log : LogFile
  imgLog : LogFile
deriving DecidableEq, Repr

/-- Models the `GET /api/img` handler `api_img`: decode the image
parameter, append a `pixel_open` event unless a matching one was logged
within the last 10 minutes (the primary log was ensured by the read even
when the append is suppressed), then serve the image. -/
def api_img (fs : String → FileState) (fetch : String → FetchOutcome)
    (now : DateTime) (req : Request) (log0 imgLog0 : LogFile) : ApiResult :=
  let rb := imageBranch fs fetch now req (pyImageParam req.image) imgLog0
  { resp := rb.1
    log :=
      if already_opened_recent now log0 req.email req.message_id 10 then
        some (ensure_file log0)
      else
        append_event now (mkPixelEvent req) (some (ensure_file log0))
    imgLog := rb.2 }

/-! ## Click tracking and query endpoints -/

structure ClickResult where
  redirectTo : String
  log : LogFile
deriving DecidableEq, Repr

/-- Models the `GET /api/click` handler: append a `click` event, answer a
302 redirect to the caller-supplied URL. -/
def api_click (now : DateTime) (email redirect : String)
    (message_id user_agent remote_addr : Option String)
    (log0 : LogFile) : ClickResult :=
  ⟨redirect,
   append_event now
     { emptyEvent with
         type := some sClick
         email := some email
         message_id := message_id
         redirect := some redirect
         user_agent := user_agent
         remote_addr := remote_addr } log0⟩

structure ByEmailResult where
  opens : List Event
  clicks : List Event
  img_reads : List Event
deriving DecidableEq, Repr

/-- Models the `GET /tracking/by_email` handler. -/
def tracking_by_email (logf imgf : LogFile) (email : String) : ByEmailResult :=
  let logs := read_jsonl logf
  let reads := read_jsonl imgf
  ⟨logs.filter (fun x => decide (x.type = some sPixelOpen ∧ x.email = some email)),
   logs.filter (fun x => decide (x.type = some sClick ∧ x.email = some email)),
   reads.filter (fun x => decide (x.email = some email))⟩

/-- Models the Python slice `xs[0:n]` for an `int` bound `n`: a
nonnegative `n` keeps the first `n` elements, a negative one drops the
last `-n`. -/
def pySlice0 (n : Int) (xs : List Event) : List Event :=
  if 0 ≤ n then xs.take n.toNat else xs.take (xs.length - (-n).toNat)

structure LatestResult where
  events : List Event
  img_reads : List Event
deriving DecidableEq, Repr

/-- Models the `GET /tracking/latest` handler:
`list(reversed(read_jsonl(...)))[0:n]` on each log. -/
def tracking_latest (logf imgf : LogFile) (n : Int) : LatestResult :=
  ⟨pySlice0 n (read_jsonl logf).reverse, pySlice0 n (read_jsonl imgf).reverse⟩

/-- The handler with its default `n = 200`. -/
def tracking_latest_default (logf imgf : LogFile) : LatestResult :=
  tracking_latest logf imgf 200

/-! ## Basic log lemmas -/

theorem read_jsonl_none : read_jsonl none = [] := rfl

theorem read_jsonl_some_append (l1 l2 : List Line) :
    read_jsonl (some (l1 ++ l2)) = read_jsonl (some l1) ++ read_jsonl (some l2) := by
  simp [read_jsonl, ensure_file, List.filterMap_append]

theorem read_jsonl_ensure (f : LogFile) :
    read_jsonl (some (ensure_file f)) = read_jsonl f := by
  cases f <;> rfl

theorem read_jsonl_ok_snoc (f : LogFile) (e : Event) :
    read_jsonl (some (ensure_file f ++ [Line.ok e])) = read_jsonl f ++ [e] := by
  rw [read_jsonl_some_append, read_jsonl_ensure]
  rfl

theorem read_jsonl_append_event (now : DateTime) (e : Event) (f : LogFile) :
    read_jsonl (append_event now e f) = read_jsonl f ++ [stampEvent now e] := by
  rw [append_event, read_jsonl_ok_snoc]

theorem stampEvent_of_time_none (now : DateTime) (e : Event) (h : e.time = none) :
    stampEvent now e = { e with time := some (isoZ now) } := by
  rw [stampEvent, h]

theorem stampEvent_of_time_some (now : DateTime) (e : Event) (s : String)
    (h : e.time = some s) : stampEvent now e = e := by
  rw [stampEvent, h]

/-- `read_jsonl` after a batch of appends of unstamped records. -/
theorem appendMany_read (recs : List (Event × DateTime)) (f : LogFile)
    (h : ∀ rd ∈ recs, rd.1.time = none) :
    read_jsonl (appendMany recs f) =
      read_jsonl f ++ recs.map (fun rd => { rd.1 with time := some (isoZ rd.2) }) := by
  induction recs generalizing f with
  | nil => simp [appendMany]
  | cons rd rest ih =>
      have hhd : rd.1.time = none := h rd (by simp)
      have hrest : ∀ x ∈ rest, x.1.time = none := fun x hx => h x (by simp [hx])
      show read_jsonl (appendMany rest (append_event rd.2 rd.1 f)) = _
      rw [ih _ hrest, read_jsonl_append_event, stampEvent_of_time_none _ _ hhd]
      simp

/-! ## Timestamp round-trip -/

theorem digitVal?_digit (k : Nat) : digitVal? (digit k) = some (k % 10) := by
  have h : k % 10 < 10 := by omega
  unfold digit
  revert h
  generalize k % 10 = m
  intro h
  interval_cases m <;> decide

theorem digit_ne_Z (k : Nat) : digit k ≠ 'Z' := by
  have h : k % 10 < 10 := by omega
  unfold digit
  revert h
  generalize k % 10 = m
  intro h
  interval_cases m <;> decide

theorem parse2_pad2 (n : Nat) (rest : List Char) :
    parse2 (pad2 n ++ rest) = some (n % 100, rest) := by
  have : 10 * (n / 10 % 10) + n % 10 = n % 100 := by omega
  simp [pad2, parse2, digitVal?_digit, this]

theorem parse4_pad4 (n : Nat) (h : n ≤ 9999) (rest : List Char) :
    parse4 (pad4 n ++ rest) = some (n, rest) := by
  have : 100 * (n / 100 % 100) + n % 100 = n := by omega
  simp [pad4, parse4, List.append_assoc, parse2_pad2, this]

theorem parse6_pad6 (n : Nat) (h : n ≤ 999999) (rest : List Char) :
    parse6 (pad6 n ++ rest) = some (n, rest) := by
  have : 10000 * (n / 10000 % 100) + 100 * (n / 100 % 100) + n % 100 = n := by
    omega
  simp [pad6, parse6, List.append_assoc, parse2_pad2, this]

theorem expectChar_cons (c : Char) (rest : List Char) :
    expectChar c (c :: rest) = some rest := by
  simp [expectChar]

theorem daysInMonth_le (y m : Nat) : daysInMonth y m ≤ 31 := by
  unfold daysInMonth
  split
  · split <;> omega
  · split <;> omega

theorem fromisoChars_isoChars (dt : DateTime) (hv : dt.Valid) :
    fromisoChars (isoChars dt) = some dt := by
  obtain ⟨h1, h2, h3, h4, h5, h6, h7, h8, h9, h10⟩ := hv
  have hdm : dt.day ≤ 31 := le_trans h6 (daysInMonth_le dt.year dt.month)
  have hy := parse4_pad4 dt.year (by omega)
  have hmo : ∀ rest, parse2 (pad2 dt.month ++ rest) = some (dt.month, rest) := by
    intro rest
    have hmod : dt.month % 100 = dt.month := by omega
    rw [parse2_pad2, hmod]
  have hd : ∀ rest, parse2 (pad2 dt.day ++ rest) = some (dt.day, rest) := by
    intro rest
    have hmod : dt.day % 100 = dt.day := by omega
    rw [parse2_pad2, hmod]
  have hh : ∀ rest, parse2 (pad2 dt.hour ++ rest) = some (dt.hour, rest) := by
    intro rest
    have hmod : dt.hour % 100 = dt.hour := by omega
    rw [parse2_pad2, hmod]
  have hmi : ∀ rest, parse2 (pad2 dt.minute ++ rest) = some (dt.minute, rest) := by
    intro rest
    have hmod : dt.minute % 100 = dt.minute := by omega
    rw [parse2_pad2, hmod]
  have hs : ∀ rest, parse2 (pad2 dt.second ++ rest) = some (dt.second, rest) := by
    intro rest
    have hmod : dt.second % 100 = dt.second := by omega
    rw [parse2_pad2, hmod]
  have hfrac : parseFrac (if dt.microsecond = 0 then ([] : List Char)
      else '.' :: pad6 dt.microsecond) = some (dt.microsecond, []) := by
    by_cases hus : dt.microsecond = 0
    · rw [if_pos hus, hus]
      rfl
    · rw [if_neg hus]
      show parse6 (pad6 dt.microsecond) = some (dt.microsecond, [])
      have := parse6_pad6 dt.microsecond (by omega) []
      simpa using this
  have hvd : DateTime.Valid
      ⟨dt.year, dt.month, dt.day, dt.hour, dt.minute, dt.second, dt.microsecond⟩ :=
    ⟨h1, h2, h3, h4, h5, h6, h7, h8, h9, h10⟩
  simp only [fromisoChars, isoChars, List.cons_append, List.append_assoc,
    hy, hmo, hd, hh, hmi, hs, expectChar_cons, hfrac, Option.some_bind]
  rw [if_pos hvd]

theorem dropZ_of_no_Z (l : List Char) (h : ∀ c ∈ l, c ≠ 'Z') : dropZ l = l := by
  induction l with
  | nil => rfl
  | cons c rest ih =>
      have hc : c ≠ 'Z' := h c (by simp)
      have hrest : ∀ x ∈ rest, x ≠ 'Z' := fun x hx => h x (by simp [hx])
      simp [dropZ, hc, ih hrest]

theorem dropZ_append (l1 l2 : List Char) :
    dropZ (l1 ++ l2) = dropZ l1 ++ dropZ l2 := by
  induction l1 with
  | nil => rfl
  | cons c rest ih =>
      by_cases hc : c = 'Z' <;> simp [dropZ, hc, ih]

theorem mem_pad2_ne_Z (n : Nat) (c : Char) (hc : c ∈ pad2 n) : c ≠ 'Z' := by
  simp [pad2] at hc
  rcases hc with h | h <;> (subst h; exact digit_ne_Z _)

theorem mem_pad4_ne_Z (n : Nat) (c : Char) (hc : c ∈ pad4 n) : c ≠ 'Z' := by
  rw [pad4] at hc
  rcases List.mem_append.mp hc with h | h <;> exact mem_pad2_ne_Z _ _ h

theorem mem_pad6_ne_Z (n : Nat) (c : Char) (hc : c ∈ pad6 n) : c ≠ 'Z' := by
  rw [pad6] at hc
  rcases List.mem_append.mp hc with h | h
  · rcases List.mem_append.mp h with h2 | h2 <;> exact mem_pad2_ne_Z _ _ h2
  · exact mem_pad2_ne_Z _ _ h

theorem isoChars_ne_Z (dt : DateTime) (c : Char) (hc : c ∈ isoChars dt) :
    c ≠ 'Z' := by
  rw [isoChars] at hc
  rcases List.mem_append.mp hc with h | h
  · rcases List.mem_append.mp h with h | h
    · rcases List.mem_append.mp h with h | h
      · rcases List.mem_append.mp h with h | h
        · rcases List.mem_append.mp h with h | h
          · rcases List.mem_append.mp h with h | h
            · exact mem_pad4_ne_Z _ _ h
            · rcases List.mem_cons.mp h with rfl | h
              · decide
              · exact mem_pad2_ne_Z _ _ h
          · rcases List.mem_cons.mp h with rfl | h
            · decide
            · exact mem_pad2_ne_Z _ _ h
        · rcases List.mem_cons.mp h with rfl | h
          · decide
          · exact mem_pad2_ne_Z _ _ h
      · rcases List.mem_cons.mp h with rfl | h
        · decide
        · exact mem_pad2_ne_Z _ _ h
    · rcases List.mem_cons.mp h with rfl | h
      · decide
      · exact mem_pad2_ne_Z _ _ h
  · by_cases hus : dt.microsecond = 0
    · rw [if_pos hus] at h
      simp at h
    · rw [if_neg hus] at h
      rcases List.mem_cons.mp h with rfl | h
      · decide
      · exact mem_pad6_ne_Z _ _ h

/-- The dedup scan recovers exactly the instant `append_event` stamped:
`fromisoformat((isoformat(dt) + "Z").replace("Z", "")) = dt`. -/
theorem parseStoredTime_isoZ (dt : DateTime) (hv : dt.Valid) :
    parseStoredTime (isoZ dt) = some dt := by
  have hdata : (isoZ dt).data = isoChars dt ++ zS.data := by
    rw [isoZ, String.data_append]
    rfl
  have hz : zS.data = ['Z'] := rfl
  rw [parseStoredTime, replaceZempty, hdata, hz, dropZ_append,
      dropZ_of_no_Z _ (isoChars_ne_Z dt)]
  have : dropZ ['Z'] = [] := rfl
  rw [this, List.append_nil]
  exact fromisoChars_isoChars dt hv

/-! ## Dedup guard characterization -/

theorem scanRecent_eq_any (cutoff : Int) (email : String) (mid : Option String)
    (l : List Event) :
    scanRecent cutoff email mid l = l.any (matchesRecent cutoff email mid) := by
  induction l with
  | nil => rfl
  | cons e rest ih =>
      by_cases hc : e.type = some sPixelOpen ∧ e.email = some email ∧ e.message_id = mid
      · cases hts : e.time with
        | none => simp [scanRecent, matchesRecent, hc, hts, ih, List.any_cons]
        | some s =>
            cases hpt : parseStoredTime s with
            | none => simp [scanRecent, matchesRecent, hc, hts, hpt, ih, List.any_cons]
            | some t =>
                by_cases hcut : cutoff ≤ toTicks t <;>
                  simp [scanRecent, matchesRecent, hc, hts, hpt, hcut, ih, List.any_cons]
      · simp [scanRecent, matchesRecent, hc, ih, List.any_cons]

theorem matchesRecent_eq_true_iff (cutoff : Int) (email : String)
    (mid : Option String) (e : Event) :
    matchesRecent cutoff email mid e = true ↔
      e.type = some sPixelOpen ∧ e.email = some email ∧ e.message_id = mid ∧
        ∃ s t, e.time = some s ∧ parseStoredTime s = some t ∧ cutoff ≤ toTicks t := by
  unfold matchesRecent
  by_cases hc : e.type = some sPixelOpen ∧ e.email = some email ∧ e.message_id = mid
  · rw [if_pos hc]
    cases hts : e.time with
    | none => simp [hc, hts]
    | some s =>
        cases hpt : parseStoredTime s with
        | none => simp [hc, hts, hpt]
        | some t => simp [hc, hts, hpt]
  · rw [if_neg hc]
    simp only [Bool.false_eq_true, false_iff]
    rintro ⟨ha, hb, hc2, _⟩
    exact hc ⟨ha, hb, hc2⟩

/-- The suppression decision is exactly: some pixel_open event of the log
matches the identity and has a parsable time at or after `now - window`.
(The reverse scan returns true at the first such event; since events that
fail any test are skipped rather than ending the scan, the result is this
existence.) -/
theorem already_opened_recent_iff (now : DateTime) (logf : LogFile)
    (email : String) (mid : Option String) (minutes : Nat) :
    already_opened_recent now logf email mid minutes = true ↔
      ∃ e ∈ read_jsonl logf,
        e.type = some sPixelOpen ∧ e.email = some email ∧ e.message_id = mid ∧
        ∃ s t, e.time = some s ∧ parseStoredTime s = some t ∧
          toTicks now - (minutes * 60000000 : Nat) ≤ toTicks t := by
  simp only [already_opened_recent, scanRecent_eq_any, List.any_eq_true,
    List.mem_reverse, matchesRecent_eq_true_iff]

/-! ## api_img projections -/

theorem api_img_log (fs : String → FileState) (fetch : String → FetchOutcome)
    (now : DateTime) (req : Request) (log0 img0 : LogFile) :
    (api_img fs fetch now req log0 img0).log =
      if already_opened_recent now log0 req.email req.message_id 10 then
        some (ensure_file log0)
      else append_event now (mkPixelEvent req) (some (ensure_file log0)) := rfl

theorem api_img_resp (fs : String → FileState) (fetch : String → FetchOutcome)
    (now : DateTime) (req : Request) (log0 img0 : LogFile) :
    (api_img fs fetch now req log0 img0).resp =
      (imageBranch fs fetch now req (pyImageParam req.image) img0).1 := rfl

theorem api_img_imgLog (fs : String → FileState) (fetch : String → FetchOutcome)
    (now : DateTime) (req : Request) (log0 img0 : LogFile) :
    (api_img fs fetch now req log0 img0).imgLog =
      (imageBranch fs fetch now req (pyImageParam req.image) img0).2 := rfl

/-! ## Two pixel requests within the window append exactly one event -/

theorem dedup_two_calls
    (fs1 fs2 : String → FileState) (fetch1 fetch2 : String → FetchOutcome)
    (d1 d2 : DateTime) (req1 req2 : Request) (log0 img0 img1 : LogFile)
    (hemail : req2.email = req1.email) (hmid : req2.message_id = req1.message_id)
    (hv : d1.Valid) (hle : toTicks d1 ≤ toTicks d2)
    (hwin : toTicks d2 - toTicks d1 < 600000000)
    (h0 : already_opened_recent d1 log0 req1.email req1.message_id 10 = false) :
    read_jsonl (api_img fs2 fetch2 d2 req2
        (api_img fs1 fetch1 d1 req1 log0 img0).log img1).log
      = read_jsonl log0 ++ [stampEvent d1 (mkPixelEvent req1)] := by
  have hcond1 : ¬ (already_opened_recent d1 log0 req1.email req1.message_id 10 = true) := by
    rw [h0]
    simp
  have hlog1 : (api_img fs1 fetch1 d1 req1 log0 img0).log
      = some (ensure_file log0 ++ [Line.ok (stampEvent d1 (mkPixelEvent req1))]) := by
    rw [api_img_log, if_neg hcond1]
    rfl
  have hread1 : read_jsonl (api_img fs1 fetch1 d1 req1 log0 img0).log
      = read_jsonl log0 ++ [stampEvent d1 (mkPixelEvent req1)] := by
    rw [hlog1, read_jsonl_ok_snoc]
  have hsupp : already_opened_recent d2 (api_img fs1 fetch1 d1 req1 log0 img0).log
      req2.email req2.message_id 10 = true := by
    rw [already_opened_recent_iff]
    refine ⟨stampEvent d1 (mkPixelEvent req1), ?_, rfl, ?_, ?_,
      isoZ d1, d1, rfl, parseStoredTime_isoZ d1 hv, ?_⟩
    · rw [hread1]
      simp
    · rw [hemail]
      rfl
    · rw [hmid]
      rfl
    · push_cast
      omega
  rw [api_img_log, if_pos hsupp, read_jsonl_ensure, hread1]

/-! ## Path and slice lemmas -/

theorem takeWhile_ne_slash (l : List Char) (c : Char)
    (hc : c ∈ l.takeWhile (fun a => a ≠ '/')) : c ≠ '/' := by
  induction l with
  | nil => simp [List.takeWhile] at hc
  | cons a rest ih =>
      rw [List.takeWhile_cons] at hc
      by_cases h : a = '/'
      · rw [if_neg (by simp [h])] at hc
        exact absurd hc (List.not_mem_nil c)
      · rw [if_pos (by simp [h])] at hc
        rcases List.mem_cons.mp hc with rfl | hc
        · exact h
        · exact ih hc

theorem basename_no_slash (p : String) (c : Char) (hc : c ∈ (basename p).data) :
    c ≠ '/' := by
  have hc2 : c ∈ (p.data.reverse.takeWhile (fun a => a ≠ '/')).reverse := hc
  rw [List.mem_reverse] at hc2
  exact takeWhile_ne_slash _ _ hc2

theorem pyJoin_of_no_slash (a b : String) (h : ∀ c ∈ b.data, c ≠ '/') :
    pyJoin a b = a ++ slashS ++ b := by
  rw [pyJoin, if_neg]
  intro hh
  cases hb : b.data with
  | nil => rw [hb] at hh; simp at hh
  | cons c rest =>
      rw [hb] at hh
      simp at hh
      exact h c (by rw [hb]; simp) hh

theorem pyJoin_basename (p : String) :
    pyJoin UPLOAD_FOLDER (basename p) = UPLOAD_FOLDER ++ slashS ++ basename p :=
  pyJoin_of_no_slash _ _ (basename_no_slash p)

theorem pySlice0_ofNat (n : Nat) (xs : List Event) :
    pySlice0 (n : Int) xs = xs.take n := by
  rw [pySlice0, if_pos (by exact_mod_cast Nat.zero_le n)]
  congr 1

theorem mem_of_mem_pySlice0 (n : Int) (xs : List Event) (e : Event)
    (he : e ∈ pySlice0 n xs) : e ∈ xs := by
  rw [pySlice0] at he
  split at he <;> exact List.mem_of_mem_take he

theorem mem_lines_of_mem_read (lines : List Line) (e : Event)
    (he : e ∈ read_jsonl (some lines)) : Line.ok e ∈ lines := by
  obtain ⟨l, hl, hle⟩ := List.mem_filterMap.mp he
  cases l with
  | ok e2 =>
      have : e2 = e := by simpa [lineEvent] using hle
      subst this
      exact hl
  | blank => simp [lineEvent] at hle
  | malformed => simp [lineEvent] at hle

/-! ## Example inputs -/

def exEmail : String := "a@x.com"

def exMid : String := "m1"

def exPhoto : String := "photo.png"

def exTraversal : String := "../../etc/passwd"

def exPasswd : String := "passwd"

def exUrl : String := "http://example.com/pic.jpg"

def exErr : String := "boom"

def exD1 : DateTime := ⟨2024, 1, 1, 0, 0, 0, 0⟩

def exD2 : DateTime := ⟨2024, 1, 1, 0, 5, 0, 0⟩

def exD3 : DateTime := ⟨2024, 1, 1, 0, 11, 0, 0⟩

def exFsAbsent : String → FileState := fun _ => FileState.absent

def exFetchRaise : String → FetchOutcome := fun _ => FetchOutcome.raised exErr

def exReqBare : Request := ⟨exEmail, none, some exMid, none, none⟩

def exReqPhoto : Request := ⟨exEmail, some exPhoto, none, none, none⟩

def exReqUrl : Request := ⟨exEmail, some exUrl, none, none, none⟩

def exOpenEvent : Event :=
  { emptyEvent with type := some sPixelOpen, email := some exEmail }

/-! ## Claims -/

/-- C3: `read_all` on any mix of valid and malformed lines returns exactly
the successfully parsed records in file order, without raising (the model
function is total); a malformed line splits away cleanly; and every event
in a query result (by-email opens, latest events) comes from a parsed
line of the log — malformed lines never surface. -/
theorem C3_read_skips_malformed :
    (∀ lines : List Line, read_jsonl (some lines) = lines.filterMap lineEvent) ∧
    (∀ xs ys : List Line,
      read_jsonl (some (xs ++ Line.malformed :: ys))
        = read_jsonl (some xs) ++ read_jsonl (some ys)) ∧
    (∀ (lines imgLines : List Line) (email : String) (e : Event),
      e ∈ (tracking_by_email (some lines) (some imgLines) email).opens →
        Line.ok e ∈ lines) ∧
    (∀ (lines imgLines : List Line) (n : Int) (e : Event),
      e ∈ (tracking_latest (some lines) (some imgLines) n).events →
        Line.ok e ∈ lines) := by
  refine ⟨fun lines => rfl, ?_, ?_, ?_⟩
  · intro xs ys
    simp [read_jsonl, ensure_file, List.filterMap_append, List.filterMap_cons, lineEvent]
  · intro lines imgLines email e he
    have he2 : e ∈ (read_jsonl (some lines)).filter
        (fun x => decide (x.type = some sPixelOpen ∧ x.email = some email)) := he
    exact mem_lines_of_mem_read lines e (List.mem_of_mem_filter he2)
  · intro lines imgLines n e he
    have he2 : e ∈ pySlice0 n (read_jsonl (some lines)).reverse := he
    have he3 := mem_of_mem_pySlice0 _ _ _ he2
    rw [List.mem_reverse] at he3
    exact mem_lines_of_mem_read lines e he3

/-- C3 witness: a concrete log of one valid and one malformed line; the
valid record shows up in the by-email opens and indeed stems from an `ok`
line. -/
theorem C3_witness :
    exOpenEvent ∈ (tracking_by_email (some [Line.ok exOpenEvent, Line.malformed])
        (some []) exEmail).opens ∧
    Line.ok exOpenEvent ∈ [Line.ok exOpenEvent, Line.malformed] :=
  ⟨by decide,
   C3_read_skips_malformed.2.2.1 [Line.ok exOpenEvent, Line.malformed] [] exEmail
     exOpenEvent (by decide)⟩

/-- C7: `latest(n)` takes the first `n` of each reversed log (newest
first, no upper bound: `n` at least the length yields everything), the
default is `n = 200`, and the concrete three-event scenario returns the
last two, newest first. -/
theorem C7_latest_newest_first :
    (∀ (logf imgf : LogFile) (n : Nat),
      tracking_latest logf imgf (n : Int)
        = ⟨((read_jsonl logf).reverse).take n, ((read_jsonl imgf).reverse).take n⟩) ∧
    (∀ logf imgf : LogFile,
      tracking_latest_default logf imgf = tracking_latest logf imgf 200) ∧
    (∀ (logf imgf : LogFile) (n : Nat), (read_jsonl logf).length ≤ n →
      (tracking_latest logf imgf (n : Int)).events = (read_jsonl logf).reverse) ∧
    (∀ e1 e2 e3 : Event,
      (tracking_latest (some [Line.ok e1, Line.ok e2, Line.ok e3]) (some []) 2).events
        = [e3, e2]) := by
  refine ⟨?_, fun logf imgf => rfl, ?_, fun e1 e2 e3 => rfl⟩
  · intro logf imgf n
    rw [tracking_latest, pySlice0_ofNat, pySlice0_ofNat]
  · intro logf imgf n hn
    have : (tracking_latest logf imgf (n : Int)).events
        = ((read_jsonl logf).reverse).take n := by
      rw [tracking_latest, pySlice0_ofNat]
    rw [this, List.take_of_length_le (by simpa using hn)]

/-- C7 witness: three appended events, `latest(5)` returns all of them
(no upper bound at play). -/
theorem C7_witness :
    (read_jsonl (some [Line.ok exOpenEvent, Line.malformed])).length ≤ 5 ∧
    (tracking_latest (some [Line.ok exOpenEvent, Line.malformed]) (some [])
        ((5 : Nat) : Int)).events
      = (read_jsonl (some [Line.ok exOpenEvent, Line.malformed])).reverse :=
  ⟨by decide,
   C7_latest_newest_first.2.2.1 (some [Line.ok exOpenEvent, Line.malformed])
     (some []) 5 (by decide)⟩

/-- C4: appending a sequence of records that lack a `time` (as every
caller in the source does) and reading back yields exactly those records
in append order, each stamped with the current instant rendered as
ISO-8601 with a trailing `Z` — the stamp parses back to the very instant;
a record that already carries a `time` is written verbatim (the stamp is
assigned only when the field is absent); and appending to an absent file
creates it with that single line. -/
theorem C4_append_roundtrip :
    (∀ (recs : List (Event × DateTime)) (f : LogFile),
      (∀ rd ∈ recs, rd.1.time = none ∧ rd.2.Valid) →
      read_jsonl (appendMany recs f)
        = read_jsonl f ++ recs.map (fun rd => { rd.1 with time := some (isoZ rd.2) }) ∧
      ∀ rd ∈ recs, (isoZ rd.2).data.getLast? = some 'Z' ∧
        parseStoredTime (isoZ rd.2) = some rd.2) ∧
    (∀ (now : DateTime) (e : Event) (s : String) (f : LogFile), e.time = some s →
      append_event now e f = some (ensure_file f ++ [Line.ok e])) ∧
    (∀ (now : DateTime) (e : Event), e.time = none →
      append_event now e none = some [Line.ok { e with time := some (isoZ now) }]) := by
  refine ⟨?_, ?_, ?_⟩
  · intro recs f h
    refine ⟨appendMany_read recs f (fun rd hrd => (h rd hrd).1), ?_⟩
    intro rd hrd
    constructor
    · have hdata : (isoZ rd.2).data = isoChars rd.2 ++ ['Z'] := by
        rw [isoZ, String.data_append]
        rfl
      rw [hdata]
      simp
    · exact parseStoredTime_isoZ rd.2 (h rd hrd).2
  · intro now e s f hs
    rw [append_event, stampEvent_of_time_some now e s hs]
  · intro now e hn
    rw [append_event, stampEvent_of_time_none now e hn]
    rfl

/-- C4 witness: two unstamped records appended at two valid instants read
back stamped, in order. -/
theorem C4_witness :
    ((∀ rd ∈ [(exOpenEvent, exD1), (exOpenEvent, exD2)],
        rd.1.time = none ∧ DateTime.Valid rd.2)) ∧
    (read_jsonl (appendMany [(exOpenEvent, exD1), (exOpenEvent, exD2)] none)
      = read_jsonl (none : LogFile) ++
        [{ exOpenEvent with time := some (isoZ exD1) },
         { exOpenEvent with time := some (isoZ exD2) }] ∧
     ∀ rd ∈ [(exOpenEvent, exD1), (exOpenEvent, exD2)],
       (isoZ rd.2).data.getLast? = some 'Z' ∧
       parseStoredTime (isoZ rd.2) = some rd.2) :=
  ⟨by decide,
   C4_append_roundtrip.1 [(exOpenEvent, exD1), (exOpenEvent, exD2)] none (by decide)⟩

theorem stamped_ticks (recs : List (Event × DateTime))
    (h : ∀ rd ∈ recs, rd.1.time = none ∧ rd.2.Valid) :
    (recs.map (fun rd => { rd.1 with time := some (isoZ rd.2) })).filterMap
        (fun e => (e.time.bind parseStoredTime).map toTicks)
      = recs.map (fun rd => toTicks rd.2) := by
  induction recs with
  | nil => rfl
  | cons rd rest ih =>
      have hv := (h rd (by simp)).2
      have hrest : ∀ x ∈ rest, x.1.time = none ∧ x.2.Valid :=
        fun x hx => h x (by simp [hx])
      simp only [List.map_cons, List.filterMap_cons, Option.some_bind,
        parseStoredTime_isoZ rd.2 hv, Option.map_some']
      rw [ih hrest]

/-- C8: an append writes exactly one new line at the end of the log (prior
lines untouched, no update or delete), the stored record carries exactly
one `time` value (stamped when absent, kept when present) and is otherwise
the record handed in; and a single-writer run of appends at non-decreasing
instants stores times that parse back to exactly those instants, hence
non-decreasing in append order. -/
theorem C8_time_monotone_append_only :
    (∀ (now : DateTime) (e : Event) (f : LogFile),
      append_event now e f = some (ensure_file f ++ [Line.ok (stampEvent now e)]) ∧
      (stampEvent now e).time.isSome = true ∧
      stampEvent now e = { e with time := (stampEvent now e).time }) ∧
    (∀ recs : List (Event × DateTime),
      (∀ rd ∈ recs, rd.1.time = none ∧ rd.2.Valid) →
      List.Chain' (fun a b => a ≤ b) (recs.map (fun rd => toTicks rd.2)) →
      (read_jsonl (appendMany recs none)).filterMap
          (fun e => (e.time.bind parseStoredTime).map toTicks)
        = recs.map (fun rd => toTicks rd.2) ∧
      List.Chain' (fun a b => a ≤ b)
        ((read_jsonl (appendMany recs none)).filterMap
          (fun e => (e.time.bind parseStoredTime).map toTicks))) := by
  constructor
  · intro now e f
    refine ⟨rfl, ?_, ?_⟩
    · cases h : e.time <;> simp [stampEvent, h]
    · cases h : e.time with
      | none => simp [stampEvent, h]
      | some s =>
          rw [stampEvent_of_time_some now e s h]
  · intro recs h hchain
    have heq : (read_jsonl (appendMany recs none)).filterMap
        (fun e => (e.time.bind parseStoredTime).map toTicks)
      = recs.map (fun rd => toTicks rd.2) := by
      rw [appendMany_read recs none (fun rd hrd => (h rd hrd).1), read_jsonl_none,
        List.nil_append, stamped_ticks recs h]
    exact ⟨heq, heq ▸ hchain⟩

/-- C8 witness: two appends at increasing instants; the stored times parse
back to those instants and are non-decreasing. -/
theorem C8_witness :
    ((∀ rd ∈ [(exOpenEvent, exD1), (exOpenEvent, exD2)],
        rd.1.time = none ∧ DateTime.Valid rd.2) ∧
     List.Chain' (fun a b => a ≤ b)
       ([(exOpenEvent, exD1), (exOpenEvent, exD2)].map (fun rd => toTicks rd.2))) ∧
    ((read_jsonl (appendMany [(exOpenEvent, exD1), (exOpenEvent, exD2)] none)).filterMap
        (fun e => (e.time.bind parseStoredTime).map toTicks)
      = [(exOpenEvent, exD1), (exOpenEvent, exD2)].map (fun rd => toTicks rd.2) ∧
     List.Chain' (fun a b => a ≤ b)
       ((read_jsonl (appendMany [(exOpenEvent, exD1), (exOpenEvent, exD2)] none)).filterMap
         (fun e => (e.time.bind parseStoredTime).map toTicks))) :=
  ⟨⟨by decide,
    by
      simp only [List.map_cons, List.map_nil]
      exact List.chain'_pair.mpr (by decide)⟩,
   C8_time_monotone_append_only.2 [(exOpenEvent, exD1), (exOpenEvent, exD2)]
     (by decide)
     (by
       simp only [List.map_cons, List.map_nil]
       exact List.chain'_pair.mpr (by decide))⟩

/-- C5: a non-remote image reference resolves to the fixed upload
directory joined with only the final path segment of the reference: the
basename contains no slash, the joined path is literally the upload
directory plus that slash-free name, the spec's traversal example
resolves to just `passwd`, and the handler's behavior depends on the
filesystem only through slash-free paths inside the upload directory
(two filesystems agreeing there are indistinguishable — traversal outside
the upload directory is impossible). -/
theorem C5_traversal_defeated :
    (∀ (p : String) (c : Char), c ∈ (basename p).data → c ≠ '/') ∧
    (∀ p : String,
      pyJoin UPLOAD_FOLDER (basename p) = UPLOAD_FOLDER ++ slashS ++ basename p) ∧
    basename exTraversal = exPasswd ∧
    (∀ (fs1 fs2 : String → FileState) (fetch : String → FetchOutcome)
       (now : DateTime) (req : Request) (log0 img0 : LogFile),
      (∀ b : String, (∀ c ∈ b.data, c ≠ '/') →
        fs1 (UPLOAD_FOLDER ++ slashS ++ b) = fs2 (UPLOAD_FOLDER ++ slashS ++ b)) →
      api_img fs1 fetch now req log0 img0 = api_img fs2 fetch now req log0 img0) := by
  refine ⟨basename_no_slash, pyJoin_basename, by decide, ?_⟩
  intro fs1 fs2 fetch now req log0 img0 hag
  have hib : imageBranch fs1 fetch now req (pyImageParam req.image) img0
      = imageBranch fs2 fetch now req (pyImageParam req.image) img0 := by
    cases hip : pyImageParam req.image with
    | none => rfl
    | some p =>
        have hfs : fs1 (pyJoin UPLOAD_FOLDER (basename p))
            = fs2 (pyJoin UPLOAD_FOLDER (basename p)) := by
          rw [pyJoin_basename]
          exact hag (basename p) (basename_no_slash p)
        by_cases hr : isRemote p
        · simp [imageBranch, hr]
        · simp [imageBranch, hr, hfs]
  calc api_img fs1 fetch now req log0 img0
      = ⟨(imageBranch fs1 fetch now req (pyImageParam req.image) img0).1,
         (api_img fs1 fetch now req log0 img0).log,
         (imageBranch fs1 fetch now req (pyImageParam req.image) img0).2⟩ := rfl
    _ = api_img fs2 fetch now req log0 img0 := by
        rw [hib]
        rfl

/-- C5 witness: `../../etc/passwd` keeps only `passwd` (its characters
are slash-free), and a concrete pair of filesystems agreeing under the
upload directory yields identical handler results. -/
theorem C5_witness :
    'd' ∈ (basename exTraversal).data ∧ 'd' ≠ '/' ∧
    api_img exFsAbsent exFetchRaise exD1 exReqPhoto none none
      = api_img (fun q => FileState.absent) exFetchRaise exD1 exReqPhoto none none :=
  ⟨by decide,
   C5_traversal_defeated.1 exTraversal 'd' (by decide),
   C5_traversal_defeated.2.2.2 exFsAbsent (fun q => FileState.absent) exFetchRaise
     exD1 exReqPhoto none none (fun b hb => rfl)⟩

/-- C6: a remote reference whose fetch raises is caught: exactly one
image-read event is appended carrying `served=remote`, the URL and the
non-null error message, and the caller receives the placeholder GIF bytes
as `image/gif` rather than an HTTP error. -/
theorem C6_remote_failure_placeholder :
    ∀ (fs : String → FileState) (fetch : String → FetchOutcome) (now : DateTime)
      (req : Request) (log0 img0 : LogFile) (i msg : String),
      req.image = some i → i ≠ emptyS → isRemote (unquote_plus i) = true →
      fetch (unquote_plus i) = FetchOutcome.raised msg →
      (api_img fs fetch now req log0 img0).resp.content = ONE_BY_ONE_GIF ∧
      (api_img fs fetch now req log0 img0).resp.media_type = imageGif ∧
      (api_img fs fetch now req log0 img0).imgLog
        = some (ensure_file img0 ++
            [Line.ok { emptyEvent with
                email := some req.email
                message_id := req.message_id
                served := some sRemote
                url := some (unquote_plus i)
                error := some msg
                time := some (isoZ now) }]) := by
  intro fs fetch now req log0 img0 i msg himg hne hr hf
  have hip : pyImageParam req.image = some (unquote_plus i) := by
    rw [himg, pyImageParam, if_neg hne]
  refine ⟨?_, ?_, ?_⟩
  · rw [api_img_resp, hip]
    simp [imageBranch, hr, hf, defaultGifResp]
  · rw [api_img_resp, hip]
    simp [imageBranch, hr, hf, defaultGifResp]
  · rw [api_img_imgLog, hip]
    simp [imageBranch, hr, hf, append_event, stampEvent, emptyEvent]

/-- C6 witness: a concrete remote request whose fetch raises returns the
placeholder and logs a `served=remote` failure event. -/
theorem C6_witness :
    (exReqUrl.image = some exUrl ∧ exUrl ≠ emptyS ∧
     isRemote (unquote_plus exUrl) = true ∧
     exFetchRaise (unquote_plus exUrl) = FetchOutcome.raised exErr) ∧
    ((api_img exFsAbsent exFetchRaise exD1 exReqUrl none none).resp.content
        = ONE_BY_ONE_GIF ∧
     (api_img exFsAbsent exFetchRaise exD1 exReqUrl none none).resp.media_type
        = imageGif ∧
     (api_img exFsAbsent exFetchRaise exD1 exReqUrl none none).imgLog
        = some (ensure_file none ++
            [Line.ok { emptyEvent with
                email := some exReqUrl.email
                message_id := exReqUrl.message_id
                served := some sRemote
                url := some (unquote_plus exUrl)
                error := some exErr
                time := some (isoZ exD1) }])) :=
  ⟨⟨rfl, by decide, by decide, rfl⟩,
   C6_remote_failure_placeholder exFsAbsent exFetchRaise exD1 exReqUrl none none
     exUrl exErr rfl (by decide) (by decide) rfl⟩

def exBody : List Nat := [1, 2, 3]

def exFetch404 : String → FetchOutcome :=
  fun u => FetchOutcome.completed 404 none exBody

/-- C9: a remote fetch that completes with ANY status — 4xx and 5xx
included — is treated as success: the body is returned with the
remote-reported content type (`image/jpeg` when the header is absent), an
image-read event with `served=remote` and no `error` field is appended,
and the placeholder fallback is not involved (the response carries the
fetched body whatever the status). -/
theorem C9_remote_status_ignored :
    ∀ (fs : String → FileState) (fetch : String → FetchOutcome) (now : DateTime)
      (req : Request) (log0 img0 : LogFile) (i : String) (status : Nat)
      (ctype : Option String) (body : List Nat),
      req.image = some i → i ≠ emptyS → isRemote (unquote_plus i) = true →
      fetch (unquote_plus i) = FetchOutcome.completed status ctype body →
      (api_img fs fetch now req log0 img0).resp.content = body ∧
      (api_img fs fetch now req log0 img0).resp.media_type = ctype.getD imageJpeg ∧
      (api_img fs fetch now req log0 img0).imgLog
        = some (ensure_file img0 ++
            [Line.ok { emptyEvent with
                email := some req.email
                message_id := req.message_id
                served := some sRemote
                url := some (unquote_plus i)
                time := some (isoZ now) }]) ∧
      ({ emptyEvent with
          email := some req.email
          message_id := req.message_id
          served := some sRemote
          url := some (unquote_plus i)
          time := some (isoZ now) } : Event).error = none := by
  intro fs fetch now req log0 img0 i status ctype body himg hne hr hf
  have hip : pyImageParam req.image = some (unquote_plus i) := by
    rw [himg, pyImageParam, if_neg hne]
  refine ⟨?_, ?_, ?_, rfl⟩
  · rw [api_img_resp, hip]
    simp [imageBranch, hr, hf]
  · rw [api_img_resp, hip]
    simp [imageBranch, hr, hf]
  · rw [api_img_imgLog, hip]
    simp [imageBranch, hr, hf, append_event, stampEvent, emptyEvent]

/-- C9 witness: a 404 response with no Content-Type is proxied as-is with
the `image/jpeg` default and a success event. -/
theorem C9_witness :
    (exReqUrl.image = some exUrl ∧ exUrl ≠ emptyS ∧
     isRemote (unquote_plus exUrl) = true ∧
     exFetch404 (unquote_plus exUrl) = FetchOutcome.completed 404 none exBody) ∧
    ((api_img exFsAbsent exFetch404 exD1 exReqUrl none none).resp.content = exBody ∧
     (api_img exFsAbsent exFetch404 exD1 exReqUrl none none).resp.media_type
        = (none : Option String).getD imageJpeg ∧
     (api_img exFsAbsent exFetch404 exD1 exReqUrl none none).imgLog
        = some (ensure_file none ++
            [Line.ok { emptyEvent with
                email := some exReqUrl.email
                message_id := exReqUrl.message_id
                served := some sRemote
                url := some (unquote_plus exUrl)
                time := some (isoZ exD1) }]) ∧
     ({ emptyEvent with
         email := some exReqUrl.email
         message_id := exReqUrl.message_id
         served := some sRemote
         url := some (unquote_plus exUrl)
         time := some (isoZ exD1) } : Event).error = none) :=
  ⟨⟨rfl, by decide, by decide, rfl⟩,
   C9_remote_status_ignored exFsAbsent exFetch404 exD1 exReqUrl none none exUrl
     404 none exBody rfl (by decide) (by decide) rfl⟩

/-- C1 counterexample: a present, non-remote image reference whose file is
absent from the upload directory.  The claim requires exactly one
image-read event (a failed one with `served=local`) to be appended; the
code appends none — the image-read log is not even created — while the
caller does receive the placeholder.  Zero is not one, so the claim as
stated is false at this input. -/
theorem C1_counterexample :
    (read_jsonl (api_img exFsAbsent exFetchRaise exD1 exReqPhoto none none).imgLog).length
      = 0 ∧
    (api_img exFsAbsent exFetchRaise exD1 exReqPhoto none none).imgLog = none ∧
    (api_img exFsAbsent exFetchRaise exD1 exReqPhoto none none).resp.content
      = ONE_BY_ONE_GIF := by
  refine ⟨rfl, rfl, rfl⟩

/-- C1 amended: with `image_param` present, exactly one ImageReadEvent is
appended when the reference is remote, and when it is local and the
resolved file exists (readable or not, `served=local` either way); but
when the local file does not exist, NO image-read event is appended and
the caller receives the placeholder image. -/
theorem C1_img_logging_amended :
    ∀ (fs : String → FileState) (fetch : String → FetchOutcome) (now : DateTime)
      (req : Request) (log0 img0 : LogFile) (i : String),
      req.image = some i → i ≠ emptyS →
      (isRemote (unquote_plus i) = true →
        ∃ ev : Event, (api_img fs fetch now req log0 img0).imgLog
            = some (ensure_file img0 ++ [Line.ok ev]) ∧ ev.served = some sRemote) ∧
      (isRemote (unquote_plus i) = false →
        (fs (pyJoin UPLOAD_FOLDER (basename (unquote_plus i))) = FileState.absent →
          (api_img fs fetch now req log0 img0).imgLog = img0 ∧
          (api_img fs fetch now req log0 img0).resp = defaultGifResp) ∧
        (fs (pyJoin UPLOAD_FOLDER (basename (unquote_plus i))) ≠ FileState.absent →
          ∃ ev : Event, (api_img fs fetch now req log0 img0).imgLog
              = some (ensure_file img0 ++ [Line.ok ev]) ∧ ev.served = some sLocal)) := by
  intro fs fetch now req log0 img0 i himg hne
  have hip : pyImageParam req.image = some (unquote_plus i) := by
    rw [himg, pyImageParam, if_neg hne]
  constructor
  · intro hr
    cases hf : fetch (unquote_plus i) with
    | completed status ctype body =>
        refine ⟨stampEvent now { emptyEvent with
            email := some req.email
            message_id := req.message_id
            served := some sRemote
            url := some (unquote_plus i) }, ?_, rfl⟩
        rw [api_img_imgLog, hip]
        simp [imageBranch, hr, hf, append_event]
    | raised msg =>
        refine ⟨stampEvent now { emptyEvent with
            email := some req.email
            message_id := req.message_id
            served := some sRemote
            url := some (unquote_plus i)
            error := some msg }, ?_, rfl⟩
        rw [api_img_imgLog, hip]
        simp [imageBranch, hr, hf, append_event]
  · intro hr
    constructor
    · intro habs
      constructor
      · rw [api_img_imgLog, hip]
        simp [imageBranch, hr, habs]
      · rw [api_img_resp, hip]
        simp [imageBranch, hr, habs]
    · intro hnabs
      cases hfs : fs (pyJoin UPLOAD_FOLDER (basename (unquote_plus i))) with
      | absent => exact absurd hfs hnabs
      | readable content =>
          refine ⟨stampEvent now { emptyEvent with
              email := some req.email
              message_id := req.message_id
              served := some sLocal
              filename := some (unquote_plus i) }, ?_, rfl⟩
          rw [api_img_imgLog, hip]
          simp [imageBranch, hr, hfs, append_event]
      | unreadable msg =>
          refine ⟨stampEvent now { emptyEvent with
              email := some req.email
              message_id := req.message_id
              error := some msg
              served := some sLocal }, ?_, rfl⟩
          rw [api_img_imgLog, hip]
          simp [imageBranch, hr, hfs, append_event]

/-- C1 witness: the amended statement at a concrete input — a readable
local file appends exactly one `served=local` event. -/
theorem C1_witness :
    (exReqPhoto.image = some exPhoto ∧ exPhoto ≠ emptyS ∧
     isRemote (unquote_plus exPhoto) = false ∧
     (fun q => FileState.readable exBody) (pyJoin UPLOAD_FOLDER
        (basename (unquote_plus exPhoto))) ≠ FileState.absent) ∧
    (∃ ev : Event,
      (api_img (fun q => FileState.readable exBody) exFetchRaise exD1 exReqPhoto
          none none).imgLog
        = some (ensure_file none ++ [Line.ok ev]) ∧ ev.served = some sLocal) :=
  ⟨⟨rfl, by decide, by decide, by decide⟩,
   ((C1_img_logging_amended (fun q => FileState.readable exBody) exFetchRaise exD1
       exReqPhoto none none exPhoto rfl (by decide)).2 (by decide)).2 (by decide)⟩

/-- C2: the suppression decision is exactly "some pixel_open event of the
log matches the email and message_id and carries a parsable time at or
after `now - window`" (events with unparsable or missing times are
skipped; an empty log yields false), and two pixel requests for the same
identity less than the 10-minute window apart — starting from a log with
no recent match — append exactly one pixel_open event between them. -/
theorem C2_dedup_window :
    (∀ (now : DateTime) (logf : LogFile) (email : String) (mid : Option String)
       (minutes : Nat),
      (already_opened_recent now logf email mid minutes = true ↔
        ∃ e ∈ read_jsonl logf,
          e.type = some sPixelOpen ∧ e.email = some email ∧ e.message_id = mid ∧
          ∃ s t, e.time = some s ∧ parseStoredTime s = some t ∧
            toTicks now - (minutes * 60000000 : Nat) ≤ toTicks t) ∧
      (read_jsonl logf = [] →
        already_opened_recent now logf email mid minutes = false)) ∧
    (∀ (fs1 fs2 : String → FileState) (fetch1 fetch2 : String → FetchOutcome)
       (d1 d2 : DateTime) (req1 req2 : Request) (log0 img0 img1 : LogFile),
      req2.email = req1.email → req2.message_id = req1.message_id →
      d1.Valid → toTicks d1 ≤ toTicks d2 → toTicks d2 - toTicks d1 < 600000000 →
      already_opened_recent d1 log0 req1.email req1.message_id 10 = false →
      read_jsonl (api_img fs2 fetch2 d2 req2
          (api_img fs1 fetch1 d1 req1 log0 img0).log img1).log
        = read_jsonl log0 ++ [stampEvent d1 (mkPixelEvent req1)]) := by
  constructor
  · intro now logf email mid minutes
    refine ⟨already_opened_recent_iff now logf email mid minutes, ?_⟩
    intro hempty
    cases hb : already_opened_recent now logf email mid minutes
    · rfl
    · obtain ⟨e, he, _⟩ :=
        (already_opened_recent_iff now logf email mid minutes).mp hb
      rw [hempty] at he
      exact absurd he (List.not_mem_nil e)
  · exact dedup_two_calls

/-- C2 witness: two requests for the same `(email, message_id)` five
minutes apart, starting from an absent log: exactly one event is stored. -/
theorem C2_witness :
    (DateTime.Valid exD1 ∧ toTicks exD1 ≤ toTicks exD2 ∧
     toTicks exD2 - toTicks exD1 < 600000000 ∧
     already_opened_recent exD1 none exEmail (some exMid) 10 = false) ∧
    read_jsonl (api_img exFsAbsent exFetchRaise exD2 exReqBare
        (api_img exFsAbsent exFetchRaise exD1 exReqBare none none).log none).log
      = read_jsonl (none : LogFile) ++ [stampEvent exD1 (mkPixelEvent exReqBare)] :=
  ⟨⟨by decide, by decide, by decide, by decide⟩,
   C2_dedup_window.2 exFsAbsent exFsAbsent exFetchRaise exFetchRaise exD1 exD2
     exReqBare exReqBare none none none rfl rfl (by decide) (by decide) (by decide)
     (by decide)⟩

def exReqNoMid : Request := ⟨exEmail, none, none, none, none⟩

/-- C10: matching requires exact equality of the stored and queried
`message_id` values including absence: a positive suppression exhibits an
event whose `message_id` equals the query's exactly; a log whose events
all differ from the queried `message_id` (in particular scoped events
against an unscoped query and vice versa) never suppresses; and
deduplication still applies to unscoped requests — two `message_id`-less
requests for the same email within the window append exactly one event. -/
theorem C10_unscoped_dedup :
    (∀ (now : DateTime) (logf : LogFile) (email : String) (mid : Option String)
       (minutes : Nat),
      already_opened_recent now logf email mid minutes = true →
        ∃ e ∈ read_jsonl logf, e.type = some sPixelOpen ∧ e.email = some email ∧
          e.message_id = mid) ∧
    (∀ (now : DateTime) (logf : LogFile) (email : String) (mid : Option String)
       (minutes : Nat),
      (∀ e ∈ read_jsonl logf, e.message_id ≠ mid) →
      already_opened_recent now logf email mid minutes = false) ∧
    (∀ (fs1 fs2 : String → FileState) (fetch1 fetch2 : String → FetchOutcome)
       (d1 d2 : DateTime) (req1 req2 : Request) (log0 img0 img1 : LogFile),
      req1.message_id = none → req2.message_id = none → req2.email = req1.email →
      d1.Valid → toTicks d1 ≤ toTicks d2 → toTicks d2 - toTicks d1 < 600000000 →
      already_opened_recent d1 log0 req1.email none 10 = false →
      read_jsonl (api_img fs2 fetch2 d2 req2
          (api_img fs1 fetch1 d1 req1 log0 img0).log img1).log
        = read_jsonl log0 ++ [stampEvent d1 (mkPixelEvent req1)]) := by
  refine ⟨?_, ?_, ?_⟩
  · intro now logf email mid minutes hb
    obtain ⟨e, he, h1, h2, h3, _⟩ :=
      (already_opened_recent_iff now logf email mid minutes).mp hb
    exact ⟨e, he, h1, h2, h3⟩
  · intro now logf email mid minutes hno
    cases hb : already_opened_recent now logf email mid minutes
    · rfl
    · obtain ⟨e, he, _, _, h3, _⟩ :=
        (already_opened_recent_iff now logf email mid minutes).mp hb
      exact absurd h3 (hno e he)
  · intro fs1 fs2 fetch1 fetch2 d1 d2 req1 req2 log0 img0 img1 h1n h2n hemail hv
      hle hwin h0
    have hmid : req2.message_id = req1.message_id := by rw [h2n, h1n]
    exact dedup_two_calls fs1 fs2 fetch1 fetch2 d1 d2 req1 req2 log0 img0 img1
      hemail hmid hv hle hwin (by rw [h1n]; exact h0)

/-- C10 witness: two unscoped requests (no message_id) for the same email
five minutes apart append exactly one event. -/
theorem C10_witness :
    (exReqNoMid.message_id = none ∧ DateTime.Valid exD1 ∧
     toTicks exD1 ≤ toTicks exD2 ∧ toTicks exD2 - toTicks exD1 < 600000000 ∧
     already_opened_recent exD1 none exEmail none 10 = false) ∧
    read_jsonl (api_img exFsAbsent exFetchRaise exD2 exReqNoMid
        (api_img exFsAbsent exFetchRaise exD1 exReqNoMid none none).log none).log
      = read_jsonl (none : LogFile) ++ [stampEvent exD1 (mkPixelEvent exReqNoMid)] :=
  ⟨⟨rfl, by decide, by decide, by decide, by decide⟩,
   C10_unscoped_dedup.2.2 exFsAbsent exFsAbsent exFetchRaise exFetchRaise exD1 exD2
     exReqNoMid exReqNoMid none none none rfl rfl rfl (by decide) (by decide)
     (by decide) (by decide)⟩

end PixelTrack
